import Mathlib

/-!
Verification of the zcoroutine runtime core (shallow embedding).

Each definition below is translated from the C++ sources of the repository:
fiber lifecycle and co_swap from src/runtime/fiber.cc, timers from
src/timer/timer.cc and src/timer/timer_manager.cc, fd-event bookkeeping from
src/io/fd_context.cc, the fd tables from src/io/fd_manager.cc and
src/io/io_scheduler.cc, the task queue from src/scheduling/task_queue.cc, and
the syscall-interception layer from src/hook/hook.cc.  Stateful code is
modelled by explicit state passing; observable side effects (context swaps,
stack copies, epoll calls, dispatches) are recorded in explicit action traces.
-/

/-! ## Fiber state machine (src/runtime/fiber.cc) -/

/-- State enumeration of Fiber::State in include/runtime/fiber.h. -/
inductive FiberState
  | kReady
  | kRunning
  | kSuspended
  | kTerminated
deriving DecidableEq, Repr

/-- Operations of fiber.cc that write the state field: Fiber::resume,
Fiber::yield, the entry trampoline Fiber::main_func, and Fiber::reset. -/
inductive FiberOp
  | resume
  | yield
  | main_func
  | reset
deriving DecidableEq, Repr

/-- State transition performed by each operation, from fiber.cc.  The result
is none when the operation's assertion would fail (resume asserts the state is
neither kTerminated nor kRunning; yield asserts kRunning; reset asserts
kTerminated).  main_func runs as the body of the fiber, so it only executes
while the fiber is kRunning; it then stores kTerminated (both on normal return
of the callback and in the catch handlers). -/
def fiber_step : FiberOp → FiberState → Option FiberState
  | .resume, s =>
    if s = .kTerminated then none
    else if s = .kRunning then none
    else some .kRunning
  | .yield, s => if s = .kRunning then some .kSuspended else none
  | .main_func, s => if s = .kRunning then some .kTerminated else none
  | .reset, s => if s = .kTerminated then some .kReady else none

/-- The transitions the specification allows: Ready to Running, Running to
Suspended, Suspended to Running, Running to Terminated, and the reset
re-initialization Terminated to Ready. -/
def fiber_allowed (s s' : FiberState) : Bool :=
  (s == .kReady && s' == .kRunning) ||
  (s == .kRunning && s' == .kSuspended) ||
  (s == .kSuspended && s' == .kRunning) ||
  (s == .kRunning && s' == .kTerminated) ||
  (s == .kTerminated && s' == .kReady)

/-- Precondition each operation asserts on the state. -/
def fiber_guard : FiberOp → FiberState → Bool
  | .resume, s => s == .kReady || s == .kSuspended
  | .yield, s => s == .kRunning
  | .main_func, s => s == .kRunning
  | .reset, s => s == .kTerminated

/-- State each operation stores when its precondition holds. -/
def fiber_post : FiberOp → FiberState
  | .resume => .kRunning
  | .yield => .kSuspended
  | .main_func => .kTerminated
  | .reset => .kReady

/-! ## Timers (src/timer/timer.cc, src/timer/timer_manager.cc) -/

/-- Timer fields from include/timer/timer.h.  tid stands in for the object
identity (the raw pointer used as the comparator tie-break), and has_callback
for callback_ != nullptr. -/
structure Timer where
  tid : Nat
  next_time : Nat
  interval : Nat
  recurring : Bool
  cancelled : Bool
  has_callback : Bool
deriving DecidableEq, Repr

/-- Strict order of TimerManager::TimerComparator: by next_time_, then by
object identity. -/
def Timer.key_lt (a b : Timer) : Bool :=
  a.next_time < b.next_time || (a.next_time == b.next_time && a.tid < b.tid)

/-- Timer::execute from timer.cc: skips when cancelled or the callback is
empty; otherwise invokes the callback and, for a recurring timer, advances
next_time_ by interval_.  The boolean reports whether the callback was
invoked. -/
def Timer.execute (t : Timer) : Bool × Timer :=
  if t.cancelled || !t.has_callback then (false, t)
  else (true, if t.recurring then { t with next_time := t.next_time + t.interval } else t)

/-- Timer::cancel from timer.cc: sets the cancelled flag and drops the
callback. -/
def Timer.cancel (t : Timer) : Timer :=
  { t with cancelled := true, has_callback := false }

/-- Timer::Timer from timer.cc: next_time_ = now + timeout, interval_ =
timeout. -/
def mk_timer (now timeout tid : Nat) (has_cb recurring : Bool) : Timer :=
  { tid := tid, next_time := now + timeout, interval := timeout,
    recurring := recurring, cancelled := false, has_callback := has_cb }

/-- Ordered insertion into the std::set of timers (ordered by
TimerComparator). -/
def insert_timer (t : Timer) : List Timer → List Timer
  | [] => [t]
  | u :: us => if Timer.key_lt t u then t :: u :: us else u :: insert_timer t us

/-- TimerManager::add_timer from timer_manager.cc: constructs the timer (even
for a null callback, which is only logged) and inserts it into the set. -/
def TimerManager.add_timer (timers : List Timer) (now timeout tid : Nat)
    (has_cb recurring : Bool) : Timer × List Timer :=
  let t := mk_timer now timeout tid has_cb recurring
  (t, insert_timer t timers)

/-- Loop body of TimerManager::list_expired_callbacks: walk the ordered set
from the front, stop at the first timer with next_time_ > now; erase each
visited timer; collect non-cancelled ones as callbacks; reinsert recurring
non-cancelled ones (with next_time_ unchanged — the reinserted element keeps
its key, so it lands before the iterator and is not revisited).  Returns
(collected timers in visit order, reinserted recurring timers, untouched
suffix of the set). -/
def list_expired_loop (now : Nat) : List Timer → List Timer × List Timer × List Timer
  | [] => ([], [], [])
  | t :: ts =>
    if now < t.next_time then ([], [], t :: ts)
    else
      let r := list_expired_loop now ts
      if !t.cancelled then
        if t.recurring then (t :: r.1, t :: r.2.1, r.2.2)
        else (t :: r.1, r.2.1, r.2.2)
      else r

/-- TimerManager::list_expired_callbacks from timer_manager.cc.  The first
component is the list of timers whose execute() wrappers are returned; the
second is the state of the set when the call returns.  The reinserted
recurring timers all have keys at most now, strictly below every key of the
remaining suffix, so the resulting ordered set is their concatenation. -/
def TimerManager.list_expired_callbacks (now : Nat) (timers : List Timer) :
    List Timer × List Timer :=
  let r := list_expired_loop now timers
  (r.1, r.2.1 ++ r.2.2)

/-- Expiry test used by the loop's break condition (the negation of
now < next_time_). -/
def expired_pred (now : Nat) : Timer → Bool :=
  fun t => decide (t.next_time ≤ now)

/-- The std::set invariant: the timer list is strictly sorted by the
comparator. -/
def timers_sorted (l : List Timer) : Prop :=
  List.Pairwise (fun a b => Timer.key_lt a b = true) l

/-- Distinctness of the object identities standing in for pointers. -/
def timer_tids_nodup (l : List Timer) : Prop :=
  List.Pairwise (fun a b => a.tid ≠ b.tid) l

/-! ## co_swap and the shared-stack machinery (src/runtime/fiber.cc) -/

/-- Fields of a Fiber that Fiber::co_swap reads: identity, the shared-stack
flag, the shared buffer it is bound to (by buffer id), and whether it holds a
non-empty save buffer (save_buffer_ != nullptr with save_size_ > 0). -/
structure FiberObj where
  fid : Nat
  is_shared_stack : Bool
  shared_buf : Option Nat
  has_save : Bool
deriving DecidableEq, Repr

/-- Observable steps taken by the context-switch machinery.  Stack copies
record whether they run on the dedicated switch stack (true) or on the stack
the call is currently executing on (false). -/
inductive SwapAction
  | record_sp (fiber : Nat)
  | set_occupant (buf : Nat) (fiber : Nat)
  | copy_save (fiber : Nat) (on_switch_stack : Bool)
  | copy_restore (fiber : Nat) (on_switch_stack : Bool)
  | set_current (fiber : Nat)
  | set_pending (fiber : Nat)
  | direct_swap (from_fiber to_fiber : Nat)
  | swap_to_switch_context (from_fiber : Nat)
deriving DecidableEq, Repr

/-- Per-thread state touched by co_swap: the occupant of each shared-stack
buffer (occupy_fiber_, indexed by buffer id) and ThreadContext's
pending-fiber slot. -/
structure SwapState where
  occupy : Nat → Option Nat
  pending_fiber : Option Nat

/-- Fiber::co_swap from fiber.cc (lines 155-217).  It records the caller's
stack pointer via inline assembly, and when the pending fiber uses a shared
stack it updates the buffer occupant, saves a displaced occupant's live
bytes, and copies the pending fiber's save buffer back into the slot — all
executed inline in co_swap's own frame, i.e. on the stack the current
coroutine is running on (on_switch_stack = false) — and finally performs a
direct Context::swap_context(curr.ctx, pending.ctx).  The pending-fiber slot
and the switch context are never touched. -/
def co_swap (curr pending : FiberObj) (st : SwapState) : List SwapAction × SwapState :=
  let head := [SwapAction.record_sp curr.fid]
  match pending.shared_buf with
  | some b =>
    if pending.is_shared_stack then
      let occ := st.occupy b
      let st1 : SwapState :=
        { st with occupy := fun x => if x = b then some pending.fid else st.occupy x }
      let save_acts :=
        match occ with
        | some f => if f ≠ pending.fid then [SwapAction.copy_save f false] else []
        | none => []
      let curr_on_same := curr.is_shared_stack && curr.shared_buf == some b
      let restore_acts :=
        if pending.has_save && !curr_on_same then [SwapAction.copy_restore pending.fid false]
        else []
      (head ++ [SwapAction.set_occupant b pending.fid] ++ save_acts ++ restore_acts ++
        [SwapAction.set_current pending.fid, SwapAction.direct_swap curr.fid pending.fid],
       st1)
    else
      (head ++ [SwapAction.set_current pending.fid,
                SwapAction.direct_swap curr.fid pending.fid], st)
  | none =>
    (head ++ [SwapAction.set_current pending.fid,
              SwapAction.direct_swap curr.fid pending.fid], st)

/-- Recognizes the swap into the per-thread switch context. -/
def SwapAction.is_switch_swap : SwapAction → Bool
  | .swap_to_switch_context _ => true
  | _ => false

/-- Recognizes a direct coroutine-to-coroutine context swap. -/
def SwapAction.is_direct_swap : SwapAction → Bool
  | .direct_swap _ _ => true
  | _ => false

/-- Recognizes a write to the thread's pending-fiber slot. -/
def SwapAction.is_set_pending : SwapAction → Bool
  | .set_pending _ => true
  | _ => false

/-- Recognizes a shared-stack save or restore copy performed outside the
dedicated switch stack, i.e. on a coroutine's own stack. -/
def SwapAction.copy_on_coroutine_stack : SwapAction → Bool
  | .copy_save _ b => !b
  | .copy_restore _ b => !b
  | _ => false

/-- Whether either side of the swap runs on a shared stack, the claim's case
split. -/
def swap_involves_shared (curr pending : FiberObj) : Bool :=
  curr.is_shared_stack || pending.is_shared_stack

/-- Statement of claim C1 at one input: when a shared stack is involved,
co_swap stores the target into the pending-fiber slot, swaps into the switch
context, and performs no save/restore copy on any coroutine's own stack. -/
def claim_c1_at (curr pending : FiberObj) (st : SwapState) : Prop :=
  swap_involves_shared curr pending = true →
    ((co_swap curr pending st).2.pending_fiber = some pending.fid ∧
     ((co_swap curr pending st).1.any SwapAction.is_switch_swap) = true ∧
     ((co_swap curr pending st).1.any SwapAction.copy_on_coroutine_stack) = false)

/-! ## Fd context (src/io/fd_context.cc) -/

/-- Event bits from include/io/fd_context.h: kRead = EPOLLIN = 0x1, kWrite =
EPOLLOUT = 0x4. -/
inductive Event
  | kRead
  | kWrite
deriving DecidableEq, Repr

/-- Numeric bit of each event. -/
def Event.val : Event → Nat
  | .kRead => 1
  | .kWrite => 4

/-- Wait-slot of one event: the parked coroutine handle and the raw callback,
each identified by a number standing in for the pointer. -/
structure EventContext where
  fiber : Option Nat
  callback : Option Nat
deriving DecidableEq, Repr

/-- Mutable state of one FdContext: which event bits are registered and the
two wait-slots.  In fd_context.cc the mask events_ starts at kNone and is
only ever combined with the two bits kRead and kWrite (events_ | event and
events_ & ~event), so every reachable mask value is exactly determined by the
two booleans stored here; the numeric value of events_ is recovered by
FdContextState.events below. -/
structure FdContextState where
  read_reg : Bool
  write_reg : Bool
  read_ctx : EventContext
  write_ctx : EventContext
deriving DecidableEq, Repr

/-- Numeric value of the events_ bitmask. -/
def FdContextState.events (st : FdContextState) : Nat :=
  (if st.read_reg then Event.val .kRead else 0) +
    (if st.write_reg then Event.val .kWrite else 0)

/-- FdContext::get_event_context. -/
def FdContextState.get_ctx (st : FdContextState) : Event → EventContext
  | .kRead => st.read_ctx
  | .kWrite => st.write_ctx

/-- Whether a given event bit is registered. -/
def FdContextState.has_reg (st : FdContextState) : Event → Bool
  | .kRead => st.read_reg
  | .kWrite => st.write_reg

/-- Writes one wait-slot. -/
def FdContextState.set_ctx (st : FdContextState) (e : Event) (c : EventContext) :
    FdContextState :=
  match e with
  | .kRead => { st with read_ctx := c }
  | .kWrite => { st with write_ctx := c }

/-- Sets one registration bit (events_ | event). -/
def FdContextState.set_bit (st : FdContextState) (e : Event) : FdContextState :=
  match e with
  | .kRead => { st with read_reg := true }
  | .kWrite => { st with write_reg := true }

/-- Clears one registration bit (events_ & ~event). -/
def FdContextState.clear_bit_of (st : FdContextState) (e : Event) : FdContextState :=
  match e with
  | .kRead => { st with read_reg := false }
  | .kWrite => { st with write_reg := false }

/-- FdContext::add_event from fd_context.cc (lines 14-33): under the lock, if
the bit is already present (events_ & event nonzero) return the current mask
unchanged — the wait-slots are not touched by this function at all;
otherwise set the bit and return the new mask events_ | event. -/
def FdContextState.add_event (st : FdContextState) (e : Event) : Nat × FdContextState :=
  if st.events &&& e.val ≠ 0 then (st.events, st)
  else ((st.set_bit e).events, st.set_bit e)

/-- FdContext::del_event from fd_context.cc (lines 35-63): if the bit is
absent, no-op; otherwise clear the bit and reset the corresponding wait-slot.
No callback is invoked and no fiber is scheduled.  Returns the new mask
events_ & ~event. -/
def FdContextState.del_event (st : FdContextState) (e : Event) : Nat × FdContextState :=
  if st.events &&& e.val = 0 then (st.events, st)
  else
    let st' := (st.clear_bit_of e).set_ctx e ⟨none, none⟩
    (st'.events, st')

/-- Steps observable in FdContext::trigger_event, in program order: mutex
acquisition and release, moving the slot's contents out, clearing the mask
bit, and the dispatch of the moved-out waiter (callback invoked directly, or
fiber handed to the current thread's scheduler).  Dispatch actions are tagged
with the event whose slot they came from. -/
inductive FdAction
  | lock
  | unlock
  | move_out (e : Event)
  | clear_bit (e : Event)
  | invoke_callback (e : Event) (cid : Nat)
  | schedule_fiber (e : Event) (fid : Nat)
deriving DecidableEq, Repr

/-- FdContext::trigger_event from fd_context.cc (lines 175-218): under the
lock, if the bit is absent return; otherwise move callback and fiber out of
the slot, clear the bit, release the lock, and only then dispatch: a
non-empty callback is invoked, else a present fiber is scheduled. -/
def FdContextState.trigger_event (st : FdContextState) (e : Event) :
    FdContextState × List FdAction :=
  if st.events &&& e.val = 0 then (st, [.lock, .unlock])
  else
    let c := st.get_ctx e
    let st' := (st.clear_bit_of e).set_ctx e ⟨none, none⟩
    let dispatch :=
      match c.callback with
      | some cid => [FdAction.invoke_callback e cid]
      | none =>
        match c.fiber with
        | some fid => [FdAction.schedule_fiber e fid]
        | none => []
    (st', [.lock, .move_out e, .clear_bit e, .unlock] ++ dispatch)

/-- Applies a sequence of trigger_event calls, concatenating the traces. -/
def run_triggers (st : FdContextState) : List Event → FdContextState × List FdAction
  | [] => (st, [])
  | e :: es =>
    let r := st.trigger_event e
    let rest := run_triggers r.1 es
    (rest.1, r.2 ++ rest.2)

/-- Recognizes a dispatch (waiter firing) for the given event's slot. -/
def FdAction.is_dispatch_of (e : Event) : FdAction → Bool
  | .invoke_callback e' _ => e' == e
  | .schedule_fiber e' _ => e' == e
  | _ => false

/-- Recognizes any dispatch action. -/
def FdAction.is_dispatch : FdAction → Bool
  | .invoke_callback _ _ => true
  | .schedule_fiber _ _ => true
  | _ => false

/-- Checks that no dispatch occurs before the first unlock of a trace. -/
def no_dispatch_before_unlock : List FdAction → Bool
  | [] => true
  | .unlock :: _ => true
  | a :: rest => !a.is_dispatch && no_dispatch_before_unlock rest

/-- Portion of a trace executed while the mutex is still held: everything
before the first unlock. -/
def locked_region (tr : List FdAction) : List FdAction :=
  tr.takeWhile (fun a => !(a == FdAction.unlock))

/-! ## Task queue (src/scheduling/task_queue.cc) -/

/-- State of TaskQueue: the FIFO of task identifiers (front at the head) and
the stopped flag. -/
structure TaskQueue where
  tasks : List Nat
  stopped : Bool
deriving DecidableEq, Repr

/-- Result of TaskQueue::pop with no timeout: a task, the sentinel false
(queue empty and stopped), or blocking forever in cv_.wait (queue empty and
not stopped, with no concurrent producer). -/
inductive PopResult
  | got (t : Nat)
  | sentinel
  | blocked
deriving DecidableEq, Repr

/-- TaskQueue::push from task_queue.cc: append at the back. -/
def TaskQueue.push (q : TaskQueue) (t : Nat) : TaskQueue :=
  { q with tasks := q.tasks ++ [t] }

/-- TaskQueue::stop from task_queue.cc: set the stopped flag; the queue
contents are untouched. -/
def TaskQueue.stop (q : TaskQueue) : TaskQueue :=
  { q with stopped := true }

/-- TaskQueue::pop with timeout_ms <= 0, from task_queue.cc: the try_pop fast
path takes the front task whenever the queue is non-empty, regardless of the
stopped flag; on an empty queue cv_.wait returns when stopped (then the queue
is still empty, so pop returns false), and otherwise waits forever. -/
def TaskQueue.pop (q : TaskQueue) : PopResult × TaskQueue :=
  match q.tasks with
  | t :: ts => (.got t, { q with tasks := ts })
  | [] => if q.stopped then (.sentinel, q) else (.blocked, q)

/-- Repeatedly pops until the first non-task result, collecting the tasks in
the order delivered and that final result. -/
def TaskQueue.drain (q : TaskQueue) : List Nat × PopResult :=
  match h : q.pop with
  | (.got t, q') =>
    let r := q'.drain
    (t :: r.1, r.2)
  | (.sentinel, _) => ([], .sentinel)
  | (.blocked, _) => ([], .blocked)
termination_by q.tasks.length
decreasing_by
  cases q with
  | mk tasks stopped =>
    cases tasks with
    | nil =>
      simp only [TaskQueue.pop] at h
      rcases hs : stopped with _ | _ <;> rw [hs] at h <;> simp_all
    | cons a ts =>
      simp only [TaskQueue.pop] at h
      cases h
      simp

/-! ## Fd tables (src/io/fd_manager.cc and src/io/io_scheduler.cc) -/

/-- Grows the table (a vector modelled by its occupancy list: true where an
fd context exists) to the requested size, filling with empty entries; a
request not larger than the current size leaves the vector unchanged, as
std::vector::resize never shrinks below in these call sites (the new size is
always strictly larger there). -/
def fd_resize (tbl : List Bool) (n : Nat) : List Bool :=
  tbl ++ List.replicate (n - tbl.length) false

/-- FdManager::get from fd_manager.cc (lines 95-131): negative fd yields
nullptr; under the read lock, an in-range fd returns the stored entry when it
exists or when auto_create is false; an out-of-range fd with auto_create
false returns nullptr; otherwise, under the write lock, an out-of-range fd
grows the table to fd * 1.5 (integer-truncated: fd + fd / 2), and a missing
entry is created.  The first component is the returned context (by index),
the second the resulting table. -/
def fd_manager_get (tbl : List Bool) (fd : Int) (auto_create : Bool) :
    Option Nat × List Bool :=
  if fd < 0 then (none, tbl)
  else
    let f := fd.toNat
    if f < tbl.length then
      if tbl.getD f false || !auto_create then
        (if tbl.getD f false then some f else none, tbl)
      else
        (some f, tbl.set f true)
    else if !auto_create then (none, tbl)
    else
      let grown := fd_resize tbl (f + f / 2)
      (some f, grown.set f true)

/-- IoScheduler::get_fd_context from io_scheduler.cc (lines 15-45): same
lookup structure, but the growth target is max(fd + 1, size + size / 2), with
a fallback to fd + 1 if that does not exceed the current size (dead in
practice, since the branch is only reached when fd >= size). -/
def io_get_fd_context (tbl : List Bool) (fd : Int) (auto_create : Bool) :
    Option Nat × List Bool :=
  if fd < 0 then (none, tbl)
  else
    let f := fd.toNat
    if f < tbl.length then
      if tbl.getD f false || !auto_create then
        (if tbl.getD f false then some f else none, tbl)
      else
        (some f, tbl.set f true)
    else if !auto_create then (none, tbl)
    else
      let want0 := max (f + 1) (tbl.length + tbl.length / 2)
      let want := if want0 ≤ tbl.length then f + 1 else want0
      let grown := fd_resize tbl want
      (some f, grown.set f true)

/-- Statement of claim C7's growth clause at one input: an auto-created
lookup beyond the current size extends the table to exactly
max(fd + 1, size + size / 2). -/
def claim_c7_growth_at (tbl : List Bool) (fd : Int) : Prop :=
  ((fd_manager_get tbl fd true).2).length = max (fd.toNat + 1) (tbl.length + tbl.length / 2)

/-! ## Hooked close (src/hook/hook.cc lines 414-434) -/

/-- Observable steps of the hooked close: FdContext::del_event applications,
the epoll registration updates performed by IoScheduler::del_event, firings
of outstanding waiters (which the claim expects; trigger-style dispatches of
a callback or fiber), the FdManager entry removal, and the final call of the
original close. -/
inductive CloseAction
  | fdctx_del_event (e : Event)
  | epoll_del
  | epoll_mod (mask : Nat)
  | fire_callback (e : Event) (cid : Nat)
  | fire_fiber (e : Event) (fid : Nat)
  | fd_manager_del
  | call_original_close
deriving DecidableEq, Repr

/-- Recognizes a waiter firing. -/
def CloseAction.is_fire : CloseAction → Bool
  | .fire_callback _ _ => true
  | .fire_fiber _ _ => true
  | _ => false

/-- IoScheduler::del_event from io_scheduler.cc (lines 194-225): looks up the
fd context without auto-create; when absent, returns with no effect; when
present, applies FdContext::del_event (which discards the wait-slot without
firing it) and then deletes or modifies the epoll registration according to
the remaining mask. -/
def io_del_event (ctx : Option FdContextState) (e : Event) :
    Option FdContextState × List CloseAction :=
  match ctx with
  | none => (none, [])
  | some st =>
    let r := st.del_event e
    (some r.2,
     [CloseAction.fdctx_del_event e,
      if r.1 = 0 then CloseAction.epoll_del else CloseAction.epoll_mod r.1])

/-- The hooked close from hook.cc (lines 414-434): when the hook is disabled,
just call the original close; otherwise, if the FdManager holds a context for
the fd, remove the Read and then the Write event through
IoScheduler::del_event, delete the FdManager entry, and finally call the
original close.  The state is (FdManager entry present, IoScheduler's fd
context for this fd). -/
def hook_close (hook_enabled : Bool) (mgr_has_ctx : Bool)
    (ioctx : Option FdContextState) :
    (Bool × Option FdContextState) × List CloseAction :=
  if !hook_enabled then ((mgr_has_ctx, ioctx), [.call_original_close])
  else if mgr_has_ctx then
    let r1 := io_del_event ioctx .kRead
    let r2 := io_del_event r1.1 .kWrite
    ((false, r2.1), r1.2 ++ r2.2 ++ [.fd_manager_del, .call_original_close])
  else ((mgr_has_ctx, ioctx), [.call_original_close])

/-- Statement of claim C8's firing clause at one input: a coroutine parked in
the fd context's read slot when close runs appears as a firing in the
trace. -/
def claim_c8_fires_at (mgr_has_ctx : Bool) (st : FdContextState) : Prop :=
  match st.read_ctx.fiber with
  | some fid => CloseAction.fire_fiber .kRead fid ∈ (hook_close true mgr_has_ctx (some st)).2
  | none => True

/-! ## Hooked I/O template do_io_hook (src/hook/hook.cc lines 105-198) -/

/-- Relevant errno values (linux). -/
def EINTR : Nat := 4

/-- Errno value reported when a non-blocking operation would block. -/
def EAGAIN : Nat := 11

/-- Errno value for a closed descriptor. -/
def EBADF : Nat := 9

/-- Errno value installed by the hook's timeout timer. -/
def ETIMEDOUT : Nat := 110

/-- The uint64_t value (uint64_t)-1, the sentinel do_io_hook compares the
configured timeout against. -/
def uint64_neg_one : Nat := 2 ^ 64 - 1

/-- Result of one call of the original syscall: a return value n >= 0 (or any
non-(-1) value), or -1 with the given errno. -/
inductive IoCallResult
  | ok (n : Int)
  | err (e : Nat)
deriving DecidableEq, Repr

/-- Environment of one suspension round: whether IoScheduler::add_event
succeeds, and whether the armed timeout timer fires before the coroutine is
resumed. -/
structure SuspendEnv where
  add_event_ok : Bool
  timer_fires : Bool
deriving DecidableEq, Repr

/-- Fields of FdCtx (include/io/fd_manager.h) read by do_io_hook. -/
structure FdCtxModel where
  is_closed : Bool
  is_socket : Bool
  user_nonblock : Bool
  recv_timeout : Nat
  send_timeout : Nat
deriving DecidableEq, Repr

/-- Direction selector passed as timeout_so (SO_RCVTIMEO or SO_SNDTIMEO). -/
inductive TimeoutKind
  | kRcv
  | kSnd
deriving DecidableEq, Repr

/-- FdCtx::get_timeout from fd_manager.cc. -/
def FdCtxModel.get_timeout (c : FdCtxModel) : TimeoutKind → Nat
  | .kRcv => c.recv_timeout
  | .kSnd => c.send_timeout

/-- The retry-on-EINTR inner loop of do_io_hook: consumes results of the
original call until the first one that is not (-1, EINTR). -/
def skip_eintr : List IoCallResult → Option (IoCallResult × List IoCallResult)
  | [] => none
  | r :: rs => if r = .err EINTR then skip_eintr rs else some (r, rs)

/-- Observable steps of do_io_hook. -/
inductive HookAction
  | armed_timer (timeout : Nat)
  | added_event
  | yielded
  | timer_fired_set_flag (e : Nat)
  | cancelled_event
  | cancelled_timer
deriving DecidableEq, Repr

/-- Final outcome of do_io_hook.  passthrough r means the original function
was called directly and its result returned; failed_errno e means return -1
with errno e; done r is the normal exit of the retry loop; out_of_inputs is
the model artifact for exhausted input lists. -/
inductive HookOutcome
  | passthrough (r : IoCallResult)
  | failed_errno (e : Nat)
  | done (r : IoCallResult)
  | out_of_inputs
deriving DecidableEq, Repr

/-- The closure armed by do_io_hook as the timeout timer (hook.cc lines
155-164): given the shared timer_info's cancelled field, it does nothing if
already cancelled, else stores ETIMEDOUT there and cancels the event.  The
boolean reports whether cancel_event was performed. -/
def io_timer_callback (cancelled : Nat) : Nat × Bool :=
  if cancelled ≠ 0 then (cancelled, false) else (ETIMEDOUT, true)

/-- The while(true) retry loop of do_io_hook.  Each round calls the original
(skipping EINTR); on (-1, EAGAIN) it arms the timeout timer when the
configured timeout differs from (uint64_t)-1, registers the readiness event
(on registration failure: cancel the timer and return -1), yields, and on
resume cancels the timer and checks the shared cancelled flag set by
io_timer_callback: if set, return -1 with that errno; otherwise run the next
round.  Any other result exits the loop. -/
def do_io_loop (timeout : Nat) :
    List SuspendEnv → List IoCallResult → HookOutcome × List HookAction
  | envs, calls =>
    match skip_eintr calls with
    | none => (.out_of_inputs, [])
    | some (.ok n, _) => (.done (.ok n), [])
    | some (.err e, rest) =>
      if e = EAGAIN then
        match envs with
        | [] => (.out_of_inputs, [])
        | env :: envrest =>
          let armed : Bool := timeout != uint64_neg_one
          let arm_acts := if armed then [HookAction.armed_timer timeout] else []
          if !env.add_event_ok then
            (.failed_errno EAGAIN,
             arm_acts ++ if armed then [HookAction.cancelled_timer] else [])
          else
            let fire := armed && env.timer_fires
            let fire_acts :=
              if fire then
                [HookAction.timer_fired_set_flag (io_timer_callback 0).1] ++
                  (if (io_timer_callback 0).2 then [HookAction.cancelled_event] else [])
              else []
            let pre := arm_acts ++ [HookAction.added_event, HookAction.yielded] ++
              fire_acts ++ (if armed then [HookAction.cancelled_timer] else [])
            if fire then (.failed_errno (io_timer_callback 0).1, pre)
            else
              let r := do_io_loop timeout envrest rest
              (r.1, pre ++ r.2)
      else (.done (.err e), [])

/-- do_io_hook from hook.cc (lines 105-198): pass through when the hook is
disabled or no fd context exists; EBADF on a closed context; pass through for
non-sockets and user-requested non-blocking descriptors; otherwise run the
retry loop with the direction's configured timeout. -/
def do_io_hook (hook_enabled : Bool) (ctx : Option FdCtxModel) (so : TimeoutKind)
    (envs : List SuspendEnv) (calls : List IoCallResult) :
    HookOutcome × List HookAction :=
  if !hook_enabled then
    (match calls with
     | [] => (.out_of_inputs, [])
     | c :: _ => (.passthrough c, []))
  else
    match ctx with
    | none =>
      (match calls with
       | [] => (.out_of_inputs, [])
       | c :: _ => (.passthrough c, []))
    | some c =>
      if c.is_closed then (.failed_errno EBADF, [])
      else if !c.is_socket || c.user_nonblock then
        (match calls with
         | [] => (.out_of_inputs, [])
         | r :: _ => (.passthrough r, []))
      else do_io_loop (c.get_timeout so) envs calls

/-- Return value and errno a caller observes from a HookOutcome, when
defined: passthrough and done expose the original result, failed_errno is -1
with that errno. -/
def HookOutcome.ret_errno : HookOutcome → Option (Int × Option Nat)
  | .passthrough (.ok n) => some (n, none)
  | .passthrough (.err e) => some (-1, some e)
  | .done (.ok n) => some (n, none)
  | .done (.err e) => some (-1, some e)
  | .failed_errno e => some (-1, some e)
  | .out_of_inputs => none

/-! ## Concrete instances used by counterexamples and witnesses -/

/-- An independent-stack coroutine (as built by the default Fiber
constructor). -/
def c1_curr : FiberObj :=
  { fid := 0, is_shared_stack := false, shared_buf := none, has_save := false }

/-- A shared-stack coroutine bound to buffer 0, suspended earlier with a
non-empty save buffer. -/
def c1_target : FiberObj :=
  { fid := 1, is_shared_stack := true, shared_buf := some 0, has_save := true }

/-- Thread state with no buffer occupant and an empty pending-fiber slot. -/
def c1_state : SwapState :=
  { occupy := fun _ => none, pending_fiber := none }

/-- A live recurring timer due at 5 ms with a 3 ms interval. -/
def c2_timer : Timer :=
  { tid := 0, next_time := 5, interval := 3, recurring := true,
    cancelled := false, has_callback := true }

/-- An fd context with a read registration whose slot parks coroutine 7. -/
def c4_state : FdContextState :=
  { read_reg := true, write_reg := false,
    read_ctx := { fiber := some 7, callback := none },
    write_ctx := { fiber := none, callback := none } }

/-- An open socket context with blocking user semantics and 100 ms timeouts
in both directions. -/
def c3_ctx : FdCtxModel :=
  { is_closed := false, is_socket := true, user_nonblock := false,
    recv_timeout := 100, send_timeout := 100 }

/-- The fd table at its initial capacity of 64, all entries empty. -/
def c7_tbl : List Bool := List.replicate 64 false

/-- An fd context with a coroutine parked on Read readiness, as seen by the
hooked close. -/
def c8_ioctx : FdContextState :=
  { read_reg := true, write_reg := false,
    read_ctx := { fiber := some 7, callback := none },
    write_ctx := { fiber := none, callback := none } }

/-! # Theorems -/

/-! ## C6: fiber state transitions -/

/-- C6: the state field only ever transitions Ready to Running, Running to
Suspended, Suspended to Running, and Running to Terminated (plus the reset
re-initialization Terminated to Ready): resume requires Ready or Suspended
and sets Running; yield requires Running and sets Suspended; the entry
trampoline sets Terminated; reset requires Terminated and re-initializes to
Ready. -/
theorem c6_fiber_state_machine :
    (∀ (op : FiberOp) (s s' : FiberState), fiber_step op s = some s' →
        fiber_allowed s s' = true ∧ fiber_guard op s = true ∧ s' = fiber_post op) ∧
    (∀ (op : FiberOp) (s : FiberState), fiber_guard op s = true →
        fiber_step op s = some (fiber_post op)) := by
  constructor
  · intro op s s' h
    cases op <;> cases s <;> cases s' <;>
      simp_all [fiber_step, fiber_allowed, fiber_guard, fiber_post]
  · intro op s h
    cases op <;> cases s <;> simp_all [fiber_step, fiber_guard, fiber_post]

/-- Witness for C6: resume of a Ready fiber takes the allowed step to
Running, and reset of a Terminated fiber steps to Ready. -/
theorem c6_fiber_state_machine_witness :
    (fiber_allowed FiberState.kReady FiberState.kRunning = true ∧
      fiber_guard FiberOp.resume FiberState.kReady = true ∧
      FiberState.kRunning = fiber_post FiberOp.resume) ∧
    fiber_step FiberOp.reset FiberState.kTerminated = some (fiber_post FiberOp.reset) :=
  ⟨c6_fiber_state_machine.1 .resume .kReady .kRunning (by decide),
   c6_fiber_state_machine.2 .reset .kTerminated (by decide)⟩

/-! ## C9: add_event idempotence -/

/-- C9: when the event bit is already present in the mask, a further
add_event returns the existing mask and leaves the whole fd context — mask
and both wait-slots — unchanged. -/
theorem c9_add_event_idempotent :
    ∀ (st : FdContextState) (e : Event),
      st.events &&& e.val ≠ 0 →
      st.add_event e = (st.events, st) := by
  intro st e h
  rw [FdContextState.add_event, if_pos h]

/-- Witness for C9 at a context that already registered Read. -/
theorem c9_add_event_idempotent_witness :
    c4_state.events &&& (Event.val .kRead) ≠ 0 ∧
    c4_state.add_event .kRead = (c4_state.events, c4_state) :=
  ⟨by decide, c9_add_event_idempotent c4_state .kRead (by decide)⟩

/-! ## C10: null callbacks are accepted and never invoked -/

/-- Helper: the inserted timer is a member of the set produced by ordered
insertion. -/
theorem mem_insert_timer_self : ∀ (t : Timer) (l : List Timer), t ∈ insert_timer t l := by
  intro t l
  induction l with
  | nil => simp [insert_timer]
  | cons u us ih =>
    unfold insert_timer
    split
    · exact List.mem_cons_self _ _
    · exact List.mem_cons_of_mem _ ih

/-- C10: add_timer with a null callback still constructs, inserts, and
returns the timer; executing such a timer invokes nothing and leaves it
unchanged; executing a cancelled timer invokes nothing; and whenever execute
does invoke, the timer had a callback and was not cancelled. -/
theorem c10_null_callback_safe :
    ∀ (timers : List Timer) (now timeout tid : Nat) (recurring : Bool) (t : Timer),
      (TimerManager.add_timer timers now timeout tid false recurring).1.has_callback = false ∧
      (TimerManager.add_timer timers now timeout tid false recurring).1
        ∈ (TimerManager.add_timer timers now timeout tid false recurring).2 ∧
      Timer.execute (TimerManager.add_timer timers now timeout tid false recurring).1 =
        (false, (TimerManager.add_timer timers now timeout tid false recurring).1) ∧
      (t.cancelled = true → (Timer.execute t).1 = false) ∧
      ((Timer.execute t).1 = true → t.has_callback = true ∧ t.cancelled = false) := by
  intro timers now timeout tid recurring t
  refine ⟨rfl, mem_insert_timer_self _ _, ?_, ?_, ?_⟩
  · simp [Timer.execute, TimerManager.add_timer, mk_timer]
  · intro h
    simp [Timer.execute, h]
  · intro h
    by_cases hc : t.cancelled
    · simp [Timer.execute, hc] at h
    · by_cases hb : t.has_callback
      · exact ⟨hb, by simpa using hc⟩
      · simp [Timer.execute, hc, hb] at h

/-- Witness for C10: a cancelled concrete timer is not invoked. -/
theorem c10_null_callback_safe_witness :
    (Timer.cancel c2_timer).cancelled = true ∧
    (Timer.execute (Timer.cancel c2_timer)).1 = false :=
  ⟨by decide, (c10_null_callback_safe [] 0 5 0 true (Timer.cancel c2_timer)).2.2.2.1 (by decide)⟩

/-! ## C5: task queue drains after stop -/

/-- Helper: on a stopped queue, drain returns exactly the queued tasks in
FIFO order followed by the sentinel. -/
theorem drain_stopped_eq :
    ∀ ts : List Nat, TaskQueue.drain { tasks := ts, stopped := true } = (ts, .sentinel) := by
  intro ts
  induction ts with
  | nil =>
    rw [TaskQueue.drain]
    simp [TaskQueue.pop]
  | cons t ts ih =>
    rw [TaskQueue.drain]
    simp [TaskQueue.pop, ih]

/-- C5: after stop, pop (with no timeout) still returns the remaining tasks
in FIFO enqueue order until the queue is empty, and pop returns the sentinel
exactly when the queue is both empty and stopped. -/
theorem c5_stop_drains_then_sentinel :
    ∀ q : TaskQueue,
      TaskQueue.drain q.stop = (q.tasks, .sentinel) ∧
      (q.pop.1 = .sentinel ↔ (q.tasks = [] ∧ q.stopped = true)) ∧
      (∀ t ts, q.tasks = t :: ts → q.pop = (.got t, { q with tasks := ts })) := by
  intro q
  refine ⟨?_, ?_, ?_⟩
  · rcases q with ⟨ts, st⟩
    exact drain_stopped_eq ts
  · rcases q with ⟨ts, st⟩
    cases ts with
    | nil => cases st <;> simp [TaskQueue.pop]
    | cons t ts => simp [TaskQueue.pop]
  · intro t ts h
    rcases q with ⟨qts, st⟩
    simp only at h
    subst h
    simp [TaskQueue.pop]

/-- Witness for C5: a stopped queue holding tasks 1 and 2 delivers them in
order and then the sentinel. -/
theorem c5_stop_drains_then_sentinel_witness :
    TaskQueue.drain (TaskQueue.stop { tasks := [1, 2], stopped := false }) =
      ([1, 2], .sentinel) :=
  (c5_stop_drains_then_sentinel { tasks := [1, 2], stopped := false }).1

/-! ## C7: fd-table growth -/

/-- Counterexample to C7 as stated: at fd 100 on the initial 64-entry table,
FdManager::get grows the table to 150 entries (fd * 1.5), not to
max(fd + 1, 1.5 * size) = 101. -/
theorem c7_counterexample :
    ¬ claim_c7_growth_at c7_tbl 100 ∧
    ((fd_manager_get c7_tbl 100 true).2).length = 150 ∧
    ((io_get_fd_context c7_tbl 100 true).2).length = 101 := by
  refine ⟨?_, by decide, by decide⟩
  unfold claim_c7_growth_at
  decide

/-- C7 amended: lookups with auto_create false never grow either table and a
negative fd yields nullptr without growth; an auto-created lookup at or
beyond the current size grows IoScheduler::get_fd_context's table to
max(fd + 1, size + size / 2) but FdManager::get's table to fd + fd / 2
(i.e. fd * 1.5 truncated), and both then create and return the entry. -/
theorem c7_amended_growth :
    ∀ (tbl : List Bool) (fd : Int),
      ((fd_manager_get tbl fd false).2 = tbl) ∧
      ((io_get_fd_context tbl fd false).2 = tbl) ∧
      (fd < 0 →
        fd_manager_get tbl fd true = (none, tbl) ∧
        io_get_fd_context tbl fd true = (none, tbl)) ∧
      (0 ≤ fd → tbl.length ≤ fd.toNat →
        (fd_manager_get tbl fd true).1 = some fd.toNat ∧
        ((fd_manager_get tbl fd true).2).length = fd.toNat + fd.toNat / 2 ∧
        (io_get_fd_context tbl fd true).1 = some fd.toNat ∧
        ((io_get_fd_context tbl fd true).2).length =
          max (fd.toNat + 1) (tbl.length + tbl.length / 2)) := by
  intro tbl fd
  refine ⟨?_, ?_, ?_, ?_⟩
  · unfold fd_manager_get
    by_cases h0 : fd < 0
    · simp [h0]
    · by_cases h1 : fd.toNat < tbl.length
      · simp [h0, h1]
      · simp [h0, h1]
  · unfold io_get_fd_context
    by_cases h0 : fd < 0
    · simp [h0]
    · by_cases h1 : fd.toNat < tbl.length
      · simp [h0, h1]
      · simp [h0, h1]
  · intro h0
    constructor
    · unfold fd_manager_get
      simp [h0]
    · unfold io_get_fd_context
      simp [h0]
  · intro h0 hlen
    have hneg : ¬ fd < 0 := by omega
    have h1 : ¬ fd.toNat < tbl.length := by omega
    refine ⟨?_, ?_, ?_, ?_⟩
    · unfold fd_manager_get
      simp [hneg, h1]
    · unfold fd_manager_get
      simp only [hneg, if_false, h1]
      simp [fd_resize, List.length_set]
      omega
    · unfold io_get_fd_context
      simp [hneg, h1]
    · unfold io_get_fd_context
      have hw : ¬ (max (fd.toNat + 1) (tbl.length + tbl.length / 2) ≤ tbl.length) := by
        omega
      simp only [hneg, if_false, h1]
      simp [hw, fd_resize, List.length_set]

/-- Witness for C7 amended, at fd 100 over the initial 64-entry table. -/
theorem c7_amended_growth_witness :
    (0 : Int) ≤ 100 ∧ c7_tbl.length ≤ (100 : Int).toNat ∧
    (fd_manager_get c7_tbl 100 true).1 = some 100 := by
  have h := (c7_amended_growth c7_tbl 100).2.2.2 (by decide) (by decide)
  exact ⟨by decide, by decide, h.1⟩

/-! ## C1: co_swap and the switch-stack indirection -/

/-- Counterexample to C1 as stated: swapping from an independent-stack
coroutine into a shared-stack coroutine with a saved stack, co_swap leaves
the pending-fiber slot untouched, never swaps into the switch context, and
performs the restore copy inline on the calling coroutine's stack before a
direct swap. -/
theorem c1_counterexample :
    ¬ claim_c1_at c1_curr c1_target c1_state ∧
    (co_swap c1_curr c1_target c1_state).2.pending_fiber = none ∧
    (co_swap c1_curr c1_target c1_state).1 =
      [SwapAction.record_sp 0, SwapAction.set_occupant 0 1,
       SwapAction.copy_restore 1 false, SwapAction.set_current 1,
       SwapAction.direct_swap 0 1] := by
  refine ⟨?_, by decide, by decide⟩
  unfold claim_c1_at
  decide

/-- C1 amended: co_swap always performs a direct
Context::swap_context(curr.ctx, target.ctx); it never writes the thread's
pending-fiber slot and never swaps into the per-thread switch context (the
switch_func machinery of thread_context.cc is unreachable from it).  When
neither side uses a shared stack the call is exactly record-SP, set-current,
direct-swap with no state change; when the target uses a shared stack with a
non-empty save buffer (and the current coroutine is not on the same buffer),
the restore copy is performed inline in co_swap's own frame, i.e. on the
calling coroutine's stack, before the direct swap. -/
theorem c1_amended_direct_swap :
    ∀ (curr pending : FiberObj) (st : SwapState),
      ((co_swap curr pending st).1.any SwapAction.is_direct_swap = true) ∧
      ((co_swap curr pending st).1.any SwapAction.is_switch_swap = false) ∧
      ((co_swap curr pending st).1.any SwapAction.is_set_pending = false) ∧
      ((co_swap curr pending st).2.pending_fiber = st.pending_fiber) ∧
      (swap_involves_shared curr pending = false →
        co_swap curr pending st =
          ([SwapAction.record_sp curr.fid, SwapAction.set_current pending.fid,
            SwapAction.direct_swap curr.fid pending.fid], st)) ∧
      (pending.is_shared_stack = true → pending.shared_buf.isSome = true →
        pending.has_save = true →
        (curr.is_shared_stack && curr.shared_buf == pending.shared_buf) = false →
        SwapAction.copy_restore pending.fid false ∈ (co_swap curr pending st).1) := by
  intro curr pending st
  rcases hb : pending.shared_buf with _ | b
  · refine ⟨?_, ?_, ?_, ?_, ?_, ?_⟩ <;>
      simp [co_swap, hb, SwapAction.is_direct_swap, SwapAction.is_switch_swap,
        SwapAction.is_set_pending]
  · by_cases hsh : pending.is_shared_stack
    · have hshared : swap_involves_shared curr pending = true := by
        simp [swap_involves_shared, hsh]
      rcases hocc : st.occupy b with _ | f
      · by_cases hrs :
          (pending.has_save && !(curr.is_shared_stack && curr.shared_buf == some b)) = true
        · refine ⟨?_, ?_, ?_, ?_, ?_, ?_⟩ <;>
            simp_all [co_swap, hb, hsh, hocc, hrs, SwapAction.is_direct_swap,
              SwapAction.is_switch_swap, SwapAction.is_set_pending]
        · refine ⟨?_, ?_, ?_, ?_, ?_, ?_⟩ <;>
            simp_all [co_swap, hb, hsh, hocc, hrs, SwapAction.is_direct_swap,
              SwapAction.is_switch_swap, SwapAction.is_set_pending]
      · by_cases hf : f = pending.fid <;>
          by_cases hrs :
            (pending.has_save && !(curr.is_shared_stack && curr.shared_buf == some b)) = true <;>
        · refine ⟨?_, ?_, ?_, ?_, ?_, ?_⟩ <;>
            simp_all [co_swap, hb, hsh, hocc, hf, hrs, SwapAction.is_direct_swap,
              SwapAction.is_switch_swap, SwapAction.is_set_pending]
    · refine ⟨?_, ?_, ?_, ?_, ?_, ?_⟩ <;>
        simp_all [co_swap, hb, hsh, swap_involves_shared,
          SwapAction.is_direct_swap, SwapAction.is_switch_swap,
          SwapAction.is_set_pending]

/-- Witness for C1 amended: the non-shared clause at two independent-stack
coroutines. -/
theorem c1_amended_direct_swap_witness :
    co_swap c1_curr { c1_curr with fid := 2 } c1_state =
      ([SwapAction.record_sp c1_curr.fid, SwapAction.set_current 2,
        SwapAction.direct_swap c1_curr.fid 2], c1_state) :=
  (c1_amended_direct_swap c1_curr { c1_curr with fid := 2 } c1_state).2.2.2.2.1 (by decide)

/-! ## C8: hooked close -/

/-- Counterexample to C8 as stated: closing an fd whose read slot parks
coroutine 7, the hooked close produces no waiter firing at all — the removal
goes through FdContext::del_event, which discards the slot silently — and the
trace is del-read, epoll-del, del-write, epoll-del, delete-context,
original-close. -/
theorem c8_counterexample :
    ¬ claim_c8_fires_at true c8_ioctx ∧
    ((hook_close true true (some c8_ioctx)).2.any CloseAction.is_fire = false) ∧
    (hook_close true true (some c8_ioctx)).2 =
      [CloseAction.fdctx_del_event .kRead, CloseAction.epoll_del,
       CloseAction.fdctx_del_event .kWrite, CloseAction.epoll_del,
       CloseAction.fd_manager_del, CloseAction.call_original_close] := by
  refine ⟨?_, by decide, by decide⟩
  show ¬ (CloseAction.fire_fiber Event.kRead 7 ∈ (hook_close true true (some c8_ioctx)).2)
  decide

/-- C8 amended: the hooked close removes the Read and the Write event through
IoScheduler::del_event, which clears the bits and DISCARDS any outstanding
waiters without firing them (no callback invoked, no coroutine re-scheduled);
it then deletes the fd context and finally calls the original close.  With
the hook disabled it only calls the original close. -/
theorem c8_amended_close_discards_waiters :
    ∀ (mgr_has : Bool) (st : FdContextState),
      ((hook_close true mgr_has (some st)).2.any CloseAction.is_fire = false) ∧
      ((hook_close false mgr_has (some st)).2 = [CloseAction.call_original_close]) ∧
      (mgr_has = true →
        (hook_close true true (some st)).1.1 = false ∧
        (∃ st2, (hook_close true true (some st)).1.2 = some st2 ∧
          st2.read_reg = false ∧ st2.write_reg = false ∧
          (st.read_reg = true → st2.read_ctx = { fiber := none, callback := none }) ∧
          (st.write_reg = true → st2.write_ctx = { fiber := none, callback := none })) ∧
        CloseAction.fdctx_del_event .kRead ∈ (hook_close true true (some st)).2 ∧
        CloseAction.fdctx_del_event .kWrite ∈ (hook_close true true (some st)).2 ∧
        CloseAction.fd_manager_del ∈ (hook_close true true (some st)).2 ∧
        (hook_close true true (some st)).2.getLast? =
          some CloseAction.call_original_close) := by
  intro mgr_has st
  rcases st with ⟨r, w, rc, wc⟩
  cases mgr_has <;> cases r <;> cases w <;>
    refine ⟨?_, ?_, ?_⟩ <;>
    simp [hook_close, io_del_event, FdContextState.del_event, FdContextState.events,
      FdContextState.clear_bit_of, FdContextState.set_ctx, Event.val,
      CloseAction.is_fire]

/-- Witness for C8 amended: with the FdManager entry present, the trace of
the concrete close contains no firing and ends in the original close. -/
theorem c8_amended_close_discards_waiters_witness :
    ((hook_close true true (some c8_ioctx)).2.any CloseAction.is_fire = false) ∧
    (hook_close true true (some c8_ioctx)).2.getLast? =
      some CloseAction.call_original_close :=
  ⟨(c8_amended_close_discards_waiters true c8_ioctx).1,
   ((c8_amended_close_discards_waiters true c8_ioctx).2.2 rfl).2.2.2.2.2⟩

/-! ## C3: hooked I/O timeout path -/

/-- C3: for a hooked socket operation on a descriptor the user left blocking,
when the direction has a configured timeout (not the (uint64_t)-1 sentinel)
and the original call returns -1 with EAGAIN, the hook arms the timeout
timer whose callback sets the shared cancelled flag to ETIMEDOUT and cancels
the readiness event; if that timer fires before the coroutine is resumed, the
operation returns -1 with errno ETIMEDOUT. -/
theorem c3_timeout_sets_etimedout :
    ∀ (c : FdCtxModel) (so : TimeoutKind) (env : SuspendEnv) (envs : List SuspendEnv)
      (calls rest : List IoCallResult),
      c.is_closed = false → c.is_socket = true → c.user_nonblock = false →
      c.get_timeout so ≠ uint64_neg_one →
      skip_eintr calls = some (.err EAGAIN, rest) →
      env.add_event_ok = true → env.timer_fires = true →
      io_timer_callback 0 = (ETIMEDOUT, true) ∧
      (do_io_hook true (some c) so (env :: envs) calls).1 = .failed_errno ETIMEDOUT ∧
      ((do_io_hook true (some c) so (env :: envs) calls).1).ret_errno =
        some (-1, some ETIMEDOUT) ∧
      HookAction.armed_timer (c.get_timeout so)
        ∈ (do_io_hook true (some c) so (env :: envs) calls).2 ∧
      HookAction.timer_fired_set_flag ETIMEDOUT
        ∈ (do_io_hook true (some c) so (env :: envs) calls).2 ∧
      HookAction.cancelled_event
        ∈ (do_io_hook true (some c) so (env :: envs) calls).2 := by
  intro c so env envs calls rest hcl hsock hnb htm hskip hok hfire
  have harm : (c.get_timeout so != uint64_neg_one) = true := by
    simpa [bne_iff_ne] using htm
  have hhook : do_io_hook true (some c) so (env :: envs) calls =
      do_io_loop (c.get_timeout so) (env :: envs) calls := by
    simp [do_io_hook, hcl, hsock, hnb]
  have hloop : do_io_loop (c.get_timeout so) (env :: envs) calls =
      (.failed_errno ETIMEDOUT,
       [HookAction.armed_timer (c.get_timeout so), HookAction.added_event,
        HookAction.yielded, HookAction.timer_fired_set_flag ETIMEDOUT,
        HookAction.cancelled_event, HookAction.cancelled_timer]) := by
    rw [do_io_loop, hskip]
    simp [EAGAIN, harm, hok, hfire, io_timer_callback, ETIMEDOUT]
  rw [hhook, hloop]
  refine ⟨by decide, rfl, rfl, ?_, ?_, ?_⟩ <;> simp

/-- Witness for C3: the concrete socket context with a 100 ms receive
timeout, one EAGAIN round in which the timer fires. -/
theorem c3_timeout_sets_etimedout_witness :
    ((do_io_hook true (some c3_ctx) .kRcv [{ add_event_ok := true, timer_fires := true }]
        [.err EAGAIN]).1).ret_errno = some (-1, some ETIMEDOUT) :=
  (c3_timeout_sets_etimedout c3_ctx .kRcv { add_event_ok := true, timer_fires := true } []
    [.err EAGAIN] [] rfl rfl rfl (by decide) (by decide) rfl rfl).2.2.1

/-! ## C4: trigger_event dispatch discipline -/

/-- Helper: the registered-bit test expressed through the bitmask, as
trigger_event's guard computes it. -/
theorem events_and_val_eq (st : FdContextState) (e : Event) :
    (st.events &&& e.val = 0) ↔ st.has_reg e = false := by
  rcases st with ⟨r, w, rc, wc⟩
  cases e <;> cases r <;> cases w <;>
    simp [FdContextState.events, FdContextState.has_reg, Event.val]

/-- Helper: triggering an unregistered event only takes and releases the
lock. -/
theorem trigger_event_unregistered (st : FdContextState) (e : Event)
    (h : st.events &&& e.val = 0) :
    st.trigger_event e = (st, [.lock, .unlock]) := by
  rw [FdContextState.trigger_event, if_pos h]

/-- Helper: triggering one event leaves the other event's registration bit
unchanged. -/
theorem trigger_event_preserves_other (st : FdContextState) (e e' : Event)
    (hne : e ≠ e') :
    ((st.trigger_event e').1).has_reg e = st.has_reg e := by
  by_cases h : st.events &&& e'.val = 0
  · rw [trigger_event_unregistered st e' h]
  · rw [FdContextState.trigger_event, if_neg h]
    rcases st with ⟨r, w, rc, wc⟩
    cases e <;> cases e' <;> simp_all [FdContextState.has_reg,
      FdContextState.clear_bit_of, FdContextState.set_ctx]

/-- Helper: a trigger of the other event dispatches nothing for this one. -/
theorem trigger_event_other_no_dispatch (st : FdContextState) (e e' : Event)
    (hne : e ≠ e') :
    List.countP (FdAction.is_dispatch_of e) (st.trigger_event e').2 = 0 := by
  by_cases h : st.events &&& e'.val = 0
  · rw [trigger_event_unregistered st e' h]
    cases e <;> cases e' <;> simp [FdAction.is_dispatch_of]
  · rw [FdContextState.trigger_event, if_neg h]
    rcases hc : (st.get_ctx e').callback with _ | cid <;>
      rcases hf : (st.get_ctx e').fiber with _ | fid <;>
      cases e <;> cases e' <;>
      simp_all [FdAction.is_dispatch_of, List.countP_cons, List.countP_append]

/-- Helper: a single trigger dispatches at most one action for its own
slot. -/
theorem trigger_event_self_le_one (st : FdContextState) (e : Event) :
    List.countP (FdAction.is_dispatch_of e) (st.trigger_event e).2 ≤ 1 := by
  by_cases h : st.events &&& e.val = 0
  · rw [trigger_event_unregistered st e h]
    cases e <;> simp [FdAction.is_dispatch_of]
  · rw [FdContextState.trigger_event, if_neg h]
    rcases hc : (st.get_ctx e).callback with _ | cid <;>
      rcases hf : (st.get_ctx e).fiber with _ | fid <;>
      cases e <;>
      simp_all [FdAction.is_dispatch_of, List.countP_cons, List.countP_append]

/-- Helper: triggering a registered event clears its bit. -/
theorem trigger_event_clears_bit (st : FdContextState) (e : Event)
    (h : ¬ st.events &&& e.val = 0) :
    ((st.trigger_event e).1).has_reg e = false := by
  rw [FdContextState.trigger_event, if_neg h]
  rcases st with ⟨r, w, rc, wc⟩
  cases e <;> simp [FdContextState.has_reg, FdContextState.clear_bit_of,
    FdContextState.set_ctx]

/-- Helper: with the bit clear, no sequence of triggers ever dispatches from
that slot again. -/
theorem run_triggers_clear_no_dispatch (e : Event) :
    ∀ (es : List Event) (st : FdContextState), st.has_reg e = false →
      List.countP (FdAction.is_dispatch_of e) (run_triggers st es).2 = 0 := by
  intro es
  induction es with
  | nil => intro st h; simp [run_triggers]
  | cons e' es ih =>
    intro st h
    rw [run_triggers]
    simp only [List.countP_append]
    by_cases hee : e = e'
    · subst hee
      have hbit : st.events &&& e.val = 0 := (events_and_val_eq st e).mpr h
      rw [trigger_event_unregistered st e hbit]
      have hrest := ih st h
      simp [FdAction.is_dispatch_of, hrest]
    · rw [trigger_event_other_no_dispatch st e e' hee]
      have hpres := trigger_event_preserves_other st e e' hee
      rw [h] at hpres
      simpa using ih _ hpres

/-- C4: trigger_event moves the callback and the coroutine handle out of the
wait-slot and clears the event bit while still holding the lock, releases the
lock before any dispatch, and across any sequence of trigger_event calls each
registered waiter of a slot is fired at most once. -/
theorem c4_trigger_fires_at_most_once :
    ∀ (st : FdContextState) (e : Event),
      (st.events &&& e.val ≠ 0 →
        ((st.trigger_event e).1.get_ctx e = { fiber := none, callback := none } ∧
         (st.trigger_event e).1.events &&& e.val = 0 ∧
         FdAction.move_out e ∈ locked_region (st.trigger_event e).2 ∧
         FdAction.clear_bit e ∈ locked_region (st.trigger_event e).2)) ∧
      no_dispatch_before_unlock (st.trigger_event e).2 = true ∧
      (∀ es : List Event,
        List.countP (FdAction.is_dispatch_of e) (run_triggers st es).2 ≤ 1) := by
  intro st e
  refine ⟨?_, ?_, ?_⟩
  · intro h
    have hclear := trigger_event_clears_bit st e h
    refine ⟨?_, (events_and_val_eq _ e).mpr hclear, ?_, ?_⟩
    · rw [FdContextState.trigger_event, if_neg h]
      rcases st with ⟨r, w, rc, wc⟩
      cases e <;> simp [FdContextState.get_ctx, FdContextState.clear_bit_of,
        FdContextState.set_ctx]
    · rw [FdContextState.trigger_event, if_neg h]
      simp [locked_region]
    · rw [FdContextState.trigger_event, if_neg h]
      simp [locked_region]
  · by_cases h : st.events &&& e.val = 0
    · rw [trigger_event_unregistered st e h]
      simp [no_dispatch_before_unlock, FdAction.is_dispatch]
    · rw [FdContextState.trigger_event, if_neg h]
      simp [no_dispatch_before_unlock, FdAction.is_dispatch]
  · intro es
    induction es generalizing st with
    | nil => simp [run_triggers]
    | cons e' es ih =>
      rw [run_triggers]
      simp only [List.countP_append]
      by_cases hee : e = e'
      · subst hee
        by_cases hbit : st.events &&& e.val = 0
        · have h1 : List.countP (FdAction.is_dispatch_of e) (st.trigger_event e).2 = 0 := by
            rw [trigger_event_unregistered st e hbit]
            simp [FdAction.is_dispatch_of]
          have h2 := run_triggers_clear_no_dispatch e es (st.trigger_event e).1
            (by rw [trigger_event_unregistered st e hbit]
                exact (events_and_val_eq st e).mp hbit)
          omega
        · have h1 := trigger_event_self_le_one st e
          have h2 := run_triggers_clear_no_dispatch e es (st.trigger_event e).1
            (trigger_event_clears_bit st e hbit)
          omega
      · have h1 := trigger_event_other_no_dispatch st e e' hee
        have h2 := ih (st.trigger_event e').1
        omega

/-- Witness for C4: a registered read waiter is dispatched at most once over
two consecutive read triggers. -/
theorem c4_trigger_fires_at_most_once_witness :
    List.countP (FdAction.is_dispatch_of .kRead)
      (run_triggers c4_state [.kRead, .kRead]).2 ≤ 1 :=
  (c4_trigger_fires_at_most_once c4_state .kRead).2.2 [.kRead, .kRead]

/-! ## C2: list_expired_callbacks -/

/-- Counterexample to C2 as stated: a recurring timer due at 5 with interval
3 is returned at now = 10, but the set at return holds it with next-fire
still 5, not 5 + 3 = 8; the advance happens only later, inside
Timer::execute. -/
theorem c2_counterexample :
    (TimerManager.list_expired_callbacks 10 [c2_timer]).1 = [c2_timer] ∧
    c2_timer.recurring = true ∧
    (TimerManager.list_expired_callbacks 10 [c2_timer]).2 = [c2_timer] ∧
    (∀ u ∈ (TimerManager.list_expired_callbacks 10 [c2_timer]).2,
      u.next_time ≠ c2_timer.next_time + c2_timer.interval) ∧
    ((Timer.execute c2_timer).2).next_time = c2_timer.next_time + c2_timer.interval := by
  refine ⟨by decide, by decide, by decide, by decide, by decide⟩

/-- Helper: the loop of list_expired_callbacks computes the takeWhile prefix
of expired timers, filters out the cancelled ones for the callback list,
keeps the recurring ones among those for reinsertion, and leaves the
dropWhile suffix. -/
theorem list_expired_loop_eq (now : Nat) (l : List Timer) :
    list_expired_loop now l =
      ((l.takeWhile (expired_pred now)).filter (fun t => !t.cancelled),
       (l.takeWhile (expired_pred now)).filter (fun t => !t.cancelled && t.recurring),
       l.dropWhile (expired_pred now)) := by
  induction l with
  | nil => simp [list_expired_loop]
  | cons t ts ih =>
    by_cases h : now < t.next_time
    · have hp : expired_pred now t = false := by
        simp only [expired_pred, decide_eq_false_iff_not]
        omega
      simp [list_expired_loop, h, List.takeWhile_cons, List.dropWhile_cons, hp]
    · have hp : expired_pred now t = true := by
        simp only [expired_pred, decide_eq_true_eq]
        omega
      simp only [list_expired_loop, if_neg h, ih, List.takeWhile_cons, hp,
        List.dropWhile_cons, if_true]
      cases hc : t.cancelled <;> cases hr : t.recurring <;>
        simp [List.filter_cons, hc, hr]

/-- Helper: distinct identities make the timer its tid's unique carrier. -/
theorem tids_nodup_inj {l : List Timer} (h : timer_tids_nodup l)
    {t u : Timer} (ht : t ∈ l) (hu : u ∈ l) (he : t.tid = u.tid) : t = u := by
  unfold timer_tids_nodup at h
  induction l with
  | nil => cases ht
  | cons a as ih =>
    rcases List.pairwise_cons.mp h with ⟨ha, has⟩
    rcases List.mem_cons.mp ht with rfl | ht'
    · rcases List.mem_cons.mp hu with rfl | hu'
      · rfl
      · exact absurd he (ha u hu')
    · rcases List.mem_cons.mp hu with rfl | hu'
      · exact absurd he.symm (ha t ht')
      · exact ih has ht' hu'

/-- Helper: in a set sorted by the comparator, every member due at or before
now lies in the expired takeWhile prefix. -/
theorem mem_takeWhile_of_sorted {now : Nat} {l : List Timer} (hs : timers_sorted l)
    {t : Timer} (ht : t ∈ l) (h : t.next_time ≤ now) :
    t ∈ l.takeWhile (expired_pred now) := by
  unfold timers_sorted at hs
  induction l with
  | nil => cases ht
  | cons a as ih =>
    rcases List.pairwise_cons.mp hs with ⟨ha, has⟩
    rcases List.mem_cons.mp ht with rfl | ht'
    · have hp : expired_pred now t = true := by
        simp only [expired_pred, decide_eq_true_eq]
        omega
      simp [List.takeWhile_cons, hp]
    · have hlt : Timer.key_lt a t = true := ha t ht'
      have ha_le : a.next_time ≤ now := by
        simp only [Timer.key_lt, Bool.or_eq_true, decide_eq_true_eq,
          Bool.and_eq_true, beq_iff_eq] at hlt
        omega
      have hp : expired_pred now a = true := by
        simp only [expired_pred, decide_eq_true_eq]
        omega
      simp only [List.takeWhile_cons, hp, if_true]
      exact List.mem_cons_of_mem _ (ih has ht')

/-- Helper: distinct tids give a Nodup timer list. -/
theorem nodup_of_tids_nodup {l : List Timer} (h : timer_tids_nodup l) : l.Nodup := by
  unfold timer_tids_nodup at h
  exact h.imp fun hab => fun he => hab (congrArg Timer.tid he)

/-- C2 amended: list_expired_callbacks returns (wrappers of) exactly the
non-cancelled timers with next-fire at most now; at the moment the call
returns, each returned one-shot timer is absent from the set, each expired
cancelled timer is absent, and each returned recurring timer has been
reinserted with its next-fire UNCHANGED — the advance by the interval only
happens when the returned wrapper later runs Timer::execute.  Every timer in
the resulting set is an unmodified element of the input set. -/
theorem c2_amended_expiry_semantics :
    ∀ (now : Nat) (timers : List Timer),
      timers_sorted timers → timer_tids_nodup timers →
      (∀ t : Timer, t ∈ (TimerManager.list_expired_callbacks now timers).1 ↔
          (t ∈ timers ∧ t.cancelled = false ∧ t.next_time ≤ now)) ∧
      (∀ u ∈ (TimerManager.list_expired_callbacks now timers).2, u ∈ timers) ∧
      (∀ t ∈ (TimerManager.list_expired_callbacks now timers).1, t.recurring = false →
          ∀ u ∈ (TimerManager.list_expired_callbacks now timers).2, u.tid ≠ t.tid) ∧
      (∀ t ∈ timers, t.cancelled = true → t.next_time ≤ now →
          ∀ u ∈ (TimerManager.list_expired_callbacks now timers).2, u.tid ≠ t.tid) ∧
      (∀ t ∈ (TimerManager.list_expired_callbacks now timers).1, t.recurring = true →
          t ∈ (TimerManager.list_expired_callbacks now timers).2) ∧
      (∀ t ∈ (TimerManager.list_expired_callbacks now timers).1,
          t.recurring = true → t.has_callback = true →
          ((Timer.execute t).2).next_time = t.next_time + t.interval) := by
  intro now timers hs hn
  have hset : (TimerManager.list_expired_callbacks now timers).2 =
      (timers.takeWhile (expired_pred now)).filter (fun t => !t.cancelled && t.recurring) ++
        timers.dropWhile (expired_pred now) := by
    simp [TimerManager.list_expired_callbacks, list_expired_loop_eq]
  have hcbs : (TimerManager.list_expired_callbacks now timers).1 =
      (timers.takeWhile (expired_pred now)).filter (fun t => !t.cancelled) := by
    simp [TimerManager.list_expired_callbacks, list_expired_loop_eq]
  have htake_sub : ∀ u ∈ timers.takeWhile (expired_pred now), u ∈ timers := by
    intro u hu
    exact (List.takeWhile_prefix (expired_pred now)).subset hu
  have hdrop_sub : ∀ u ∈ timers.dropWhile (expired_pred now), u ∈ timers := by
    intro u hu
    rw [← List.takeWhile_append_dropWhile (p := expired_pred now) (l := timers)]
    exact List.mem_append_right _ hu
  have hdisj : ∀ u, u ∈ timers.takeWhile (expired_pred now) →
      u ∈ timers.dropWhile (expired_pred now) → False := by
    intro u hu1 hu2
    have hnd : (timers.takeWhile (expired_pred now) ++
        timers.dropWhile (expired_pred now)).Nodup := by
      rw [List.takeWhile_append_dropWhile]
      exact nodup_of_tids_nodup hn
    exact (List.nodup_append.mp hnd).2.2 hu1 hu2
  have hmem_cbs : ∀ t : Timer, t ∈ (TimerManager.list_expired_callbacks now timers).1 ↔
      (t ∈ timers ∧ t.cancelled = false ∧ t.next_time ≤ now) := by
    intro t
    rw [hcbs]
    constructor
    · intro h
      rcases List.mem_filter.mp h with ⟨h1, h2⟩
      refine ⟨htake_sub t h1, by simpa using h2, ?_⟩
      have := List.mem_takeWhile_imp h1
      simpa [expired_pred] using this
    · rintro ⟨h1, h2, h3⟩
      exact List.mem_filter.mpr ⟨mem_takeWhile_of_sorted hs h1 h3, by simp [h2]⟩
  refine ⟨hmem_cbs, ?_, ?_, ?_, ?_, ?_⟩
  · intro u hu
    rw [hset] at hu
    rcases List.mem_append.mp hu with hu | hu
    · exact htake_sub u (List.mem_filter.mp hu).1
    · exact hdrop_sub u hu
  · intro t ht hrec u hu htid
    have htmem := (hmem_cbs t).mp ht
    rw [hset] at hu
    have humem : u ∈ timers := by
      rcases List.mem_append.mp hu with hu' | hu'
      · exact htake_sub u (List.mem_filter.mp hu').1
      · exact hdrop_sub u hu'
    have : u = t := tids_nodup_inj hn humem htmem.1 htid
    subst this
    rcases List.mem_append.mp hu with hu' | hu'
    · have := (List.mem_filter.mp hu').2
      simp [hrec] at this
    · rw [hcbs] at ht
      exact hdisj u (List.mem_filter.mp ht).1 hu'
  · intro t ht hcanc hexp u hu htid
    rw [hset] at hu
    have humem : u ∈ timers := by
      rcases List.mem_append.mp hu with hu' | hu'
      · exact htake_sub u (List.mem_filter.mp hu').1
      · exact hdrop_sub u hu'
    have : u = t := tids_nodup_inj hn humem ht htid
    subst this
    rcases List.mem_append.mp hu with hu' | hu'
    · have := (List.mem_filter.mp hu').2
      simp [hcanc] at this
    · exact hdisj u (mem_takeWhile_of_sorted hs ht hexp) hu'
  · intro t ht hrec
    rw [hset]
    rw [hcbs] at ht
    rcases List.mem_filter.mp ht with ⟨h1, h2⟩
    refine List.mem_append_left _ (List.mem_filter.mpr ⟨h1, ?_⟩)
    simp_all
  · intro t ht hrec hcb
    have := (hmem_cbs t).mp ht
    simp [Timer.execute, this.2.1, hcb, hrec]

/-- Witness for C2 amended, on the singleton set holding the concrete
recurring timer (sorted, distinct tids): the timer is returned at now =
10. -/
theorem c2_amended_expiry_semantics_witness :
    c2_timer ∈ (TimerManager.list_expired_callbacks 10 [c2_timer]).1 :=
  ((c2_amended_expiry_semantics 10 [c2_timer] (by unfold timers_sorted; simp)
      (by unfold timer_tids_nodup; simp)).1 c2_timer).mpr ⟨by simp, by decide, by decide⟩
